import Mathlib

/-!
# Verification of the TravelNest Airbnb scraper (`scraper.py`)

A shallow embedding of `scraper.py` and proofs about the claims of its
specification.  The embedding keeps the structure, names and control flow of
the Python source:

* `get_json_data` models lines 55-80 (comment stripping of the marker
  element's text and JSON parsing);
* `generate_report` and its helpers model lines 83-144 (the summary mapper);
* `print_report` models lines 147-184 (the report renderer);
* `divide_list` models lines 187-210 (the partitioner) over a model of the
  binary64 float arithmetic the source uses; `divide_list_exact` is its
  exact-rational idealization, the spec-side contract definition;
* `scraperUrls` models `Scraper.__init__` (lines 224-233);
* `runWorker` models `Scraper.run` (lines 235-264).

Python's dynamically typed data is embedded with typed structures: a
dictionary key that the code reads with `dict.get` (absence tolerated)
becomes an `Option` field; a key read with `dict[...]` and whose absence a
claim depends on also becomes an `Option` field, with the raised `KeyError`
modelled as an `Except.error`.  The external collaborators (the `requests`
HTTP transport and the BeautifulSoup markup parser) are modelled as
environment functions supplied to the worker, as the spec directs.
-/

/-- Errors that abort the processing of one page.  They model the Python
exceptions raised inside the worker's `try` block: `KeyError` on
`data['bootstrapData']['listing']` (`missingListing`), on `listing['name']`
(`missingName`) and on `detail['value']` (`missingValue`), the
`AttributeError` raised by `get_json_data` when the marker `script` tag is
absent (`markerNotFound`), and the `json` module's decode error
(`malformedPayload`). -/
inductive ScrapeError where
  | markerNotFound
  | malformedPayload
  | missingListing
  | missingName
  | missingValue
deriving DecidableEq, Repr

/-- One entry of `listing['space_interface']` (a "detail").  The code reads
the label with `detail.get('label')` (absence tolerated, hence `Option`) and
the value with `detail['value']` (absence raises `KeyError`, hence `Option`
whose `none` case is turned into `ScrapeError.missingValue` exactly where the
code would raise).  Values are modelled as strings; Python truthiness of a
string is non-emptiness. -/
structure Detail where
  label : Option String
  value : Option String
deriving DecidableEq, Repr

/-- One entry of `listing['listing_amenities']`.  All four keys are read with
`dict[...]` and every claim treats them as present, so they are modelled as
total fields. -/
structure Amenity where
  name : String
  category : String
  is_present : Bool
  is_safety_feature : Bool
deriving DecidableEq, Repr

/-- The `listing` sub-dictionary of the payload.  `listing['name']` is read
with `[...]`; its absence (`KeyError`) is the `MissingName` failure, hence the
`Option`.  The two lists are read with `[...]` as well; no claim concerns
their absence, so they are modelled as total fields. -/
structure Listing where
  name : Option String
  space_interface : List Detail
  listing_amenities : List Amenity
deriving DecidableEq, Repr

/-- The structured payload handed to `generate_report`.  The field models the
path `data['bootstrapData']['listing']`; `none` models the absence of either
key (`KeyError`, the spec's `MissingListing`). -/
structure PageData where
  listing : Option Listing
deriving DecidableEq, Repr

/-- The summary dictionary built by `generate_report` (lines 107-115). -/
structure Summary where
  property_name : String
  property_type : String
  rooms : String
  bathrooms : String
  general_amenities : List String
  family_amenities : List String
  safety_feats : List String
deriving DecidableEq, Repr

/-- The initial summary dictionary of lines 107-115: the property name and
the three `'Not found'` sentinels, with three empty amenity lists. -/
def initSummary (nm : String) : Summary :=
  { property_name := nm
    property_type := "Not found"
    rooms := "Not found"
    bathrooms := "Not found"
    general_amenities := []
    family_amenities := []
    safety_feats := [] }

/-- One of the three `if detail.get('label') == ... and detail['value']:`
statements of lines 121-128, abstracted over the label and the field the
match overwrites.  Reading `detail['value']` when the key is absent raises
`KeyError`, modelled as `ScrapeError.missingValue`; by Python's short-circuit
`and`, the value is only read when the label matches.  A falsy (empty) value
leaves the summary unchanged. -/
def detailStep (s : Summary) (d : Detail) (lbl : String) (upd : Summary → String → Summary) :
    Except ScrapeError Summary :=
  if d.label = some lbl then
    match d.value with
    | none => .error .missingValue
    | some v => .ok (if v = "" then s else upd s v)
  else .ok s

/-- The body of the `for detail in listing['space_interface']:` loop
(lines 119-128): the three label checks run in order, and an exception from
any one of them propagates. -/
def processDetail (s : Summary) (d : Detail) : Except ScrapeError Summary :=
  match detailStep s d "Property type:" (fun s v => { s with property_type := v }) with
  | .error e => .error e
  | .ok s1 =>
    match detailStep s1 d "Bedrooms:" (fun s v => { s with rooms := v }) with
    | .error e => .error e
    | .ok s2 => detailStep s2 d "Bathrooms:" (fun s v => { s with bathrooms := v })

/-- The `for detail in listing['space_interface']:` loop of lines 119-128. -/
def processDetails (s : Summary) : List Detail → Except ScrapeError Summary
  | [] => .ok s
  | d :: ds =>
    match processDetail s d with
    | .error e => .error e
    | .ok s' => processDetails s' ds

/-- The body of the `for amenity in listing['listing_amenities']:` loop
(lines 132-142): a present amenity is appended to the family list when its
category is `'family'`, else to the safety list when its category is
`'general'` and its safety flag is set, else to the general list. -/
def processAmenity (s : Summary) (a : Amenity) : Summary :=
  if a.is_present then
    if a.category == "family" then
      { s with family_amenities := s.family_amenities ++ [a.name] }
    else if (a.category == "general") && a.is_safety_feature then
      { s with safety_feats := s.safety_feats ++ [a.name] }
    else
      { s with general_amenities := s.general_amenities ++ [a.name] }
  else s

/-- The `for amenity in listing['listing_amenities']:` loop of lines 132-142. -/
def processAmenities (s : Summary) : List Amenity → Summary
  | [] => s
  | a :: rest => processAmenities (processAmenity s a) rest

/-- `generate_report` (lines 83-144): navigate to the listing, read the
required name, then fold the details and the amenities into the summary. -/
def generate_report (data : PageData) : Except ScrapeError Summary :=
  match data.listing with
  | none => .error .missingListing
  | some listing =>
    match listing.name with
    | none => .error .missingName
    | some nm =>
      match processDetails (initSummary nm) listing.space_interface with
      | .error e => .error e
      | .ok s => .ok (processAmenities s listing.listing_amenities)

/-- Classifier for the family branch of lines 135-136: the amenity is present
and its category is `'family'`. -/
def isFamilyA (a : Amenity) : Bool :=
  a.is_present && (a.category == "family")

/-- Classifier for the safety branch of lines 138-139: the amenity is
present, the family branch did not fire, its category is `'general'` and its
safety flag is set. -/
def isSafetyA (a : Amenity) : Bool :=
  a.is_present && !(a.category == "family") && ((a.category == "general") && a.is_safety_feature)

/-- Classifier for the general branch of lines 141-142: the amenity is
present and neither previous branch fired. -/
def isGeneralA (a : Amenity) : Bool :=
  a.is_present && !(a.category == "family") && !((a.category == "general") && a.is_safety_feature)

/-- The report renderer's repeated star banner, `'* ' * k` (line 158). -/
def strRepeat (s : String) : ℕ → String
  | 0 => ""
  | k + 1 => s ++ strRepeat s k

/-- Python's `str.ljust`: pad on the right with spaces to the given width
(lines 161-163). -/
def ljust (s : String) (w : ℕ) : String :=
  s ++ String.mk (List.replicate (w - s.length) ' ')

/-- One bulleted amenity line: `print(' * ', amenity)` joins its two
arguments with a space (lines 170, 175, 180). -/
def bullet (s : String) : String :=
  " *  " ++ s

/-- The title line `'\nPROPERTY SUMMARY FOR "{}"\n'.format(name)`
(line 157). -/
def reportHeader (nm : String) : String :=
  "\nPROPERTY SUMMARY FOR \"" ++ nm ++ "\"\n"

/-- `print_report` (lines 147-184), as the list of texts passed to `print`
in order.  The family and safety sections iterate `list or ['n/a']`:
Python's `or` substitutes the placeholder exactly when the list is empty.
The general section iterates the list itself, with no placeholder. -/
def print_report (r : Summary) : List String :=
  [ strRepeat "* " ((reportHeader r.property_name).length / 2),
    reportHeader r.property_name,
    ljust "Property Type:" 25 ++ " " ++ r.property_type,
    ljust "Number of Bedrooms:" 25 ++ " " ++ r.rooms,
    ljust "Number of Bathrooms:" 25 ++ " " ++ r.bathrooms,
    "\nAMENITIES:" ]
  ++ r.general_amenities.map bullet
  ++ ["\nFAMILY AMENITIES:"]
  ++ (if r.family_amenities.isEmpty then ["n/a"] else r.family_amenities).map bullet
  ++ ["\nSAFETY FEATURES:"]
  ++ (if r.safety_feats.isEmpty then ["n/a"] else r.safety_feats).map bullet
  ++ ["\n"]

/-- The comment-open delimiter `'<!--'` of line 77. -/
def commentOpen : List Char := ['<', '!', '-', '-']

/-- The comment-close delimiter `'-->'` of line 77. -/
def commentClose : List Char := ['-', '-', '>']

/-- Python's `str.replace(pat, '')` with fuel: scan left to right, and on a
match of `pat` skip it and continue after it (no rescan of the replaced
region).  The fuel is the length of the scanned text; every step consumes at
least one character, so `pyReplace` below never exhausts it. -/
def pyReplaceFuel (pat : List Char) : ℕ → List Char → List Char
  | _, [] => []
  | 0, s => s
  | fuel + 1, c :: rest =>
    if pat.isPrefixOf (c :: rest) then pyReplaceFuel pat fuel ((c :: rest).drop pat.length)
    else c :: pyReplaceFuel pat fuel rest

/-- Python's `s.replace(pat, '')` for a non-empty pattern. -/
def pyReplace (s pat : List Char) : List Char :=
  pyReplaceFuel pat s.length s

/-- Whether `pat` occurs as a contiguous substring of `s` (Python's
`pat in s`). -/
def hasSub : List Char → List Char → Bool
  | [], pat => pat.isEmpty
  | c :: rest, pat => pat.isPrefixOf (c :: rest) || hasSub rest pat

/-- Line 77: `str(data.contents[0]).replace('<!--', '').replace('-->', '')`,
the order-independent removal of the two comment delimiters from the marker
element's text. -/
def stripComments (s : List Char) : List Char :=
  pyReplace (pyReplace s commentOpen) commentClose

/-- A parsed JSON document, the structured payload of line 78.  Strings and
object keys are kept as character lists; numbers are modelled as integers. -/
inductive JsonValue where
  | null
  | bool (b : Bool)
  | num (n : Int)
  | str (s : List Char)
  | arr (elems : List JsonValue)
  | obj (members : List (List Char × JsonValue))
deriving Repr

/-- JSON whitespace. -/
def isJsonWs (c : Char) : Bool :=
  (c == ' ') || (c == '\n') || (c == '\t') || (c == '\r')

/-- Drop leading JSON whitespace. -/
def skipWs : List Char → List Char
  | [] => []
  | c :: rest => if isJsonWs c then skipWs rest else c :: rest

/-- Longest leading run of decimal digits. -/
def takeDigits : List Char → List Char × List Char
  | [] => ([], [])
  | c :: rest =>
    if c.isDigit then
      ((takeDigits rest).1.cons c, (takeDigits rest).2)
    else ([], c :: rest)

/-- Decimal digits to a natural number. -/
def digitsToNat (acc : ℕ) : List Char → ℕ
  | [] => acc
  | c :: rest => digitsToNat (acc * 10 + (c.toNat - 48)) rest

/-- Parse an optionally signed decimal integer. -/
def parseNumber (s : List Char) : Option (Int × List Char) :=
  match s with
  | '-' :: rest =>
    match takeDigits rest with
    | ([], _) => none
    | (ds, r) => some (-(digitsToNat 0 ds : ℤ), r)
  | _ =>
    match takeDigits s with
    | ([], _) => none
    | (ds, r) => some ((digitsToNat 0 ds : ℤ), r)

/-- Scan a JSON string body up to the closing quote (escape sequences are
not modelled; none occur in the texts considered here). -/
def takeUntilQuote : List Char → Option (List Char × List Char)
  | [] => none
  | c :: rest =>
    if c = '"' then some ([], rest)
    else (takeUntilQuote rest).map (fun p => (p.1.cons c, p.2))

/-- Comma-separated array elements up to `]`, with the element parser `pv`
supplied as an argument. -/
def parseElemsF (pv : List Char → Option (JsonValue × List Char)) :
    ℕ → List Char → Option (List JsonValue × List Char)
  | 0, _ => none
  | fuel + 1, s =>
    match pv s with
    | none => none
    | some (v, r) =>
      match skipWs r with
      | ',' :: r2 =>
        match parseElemsF pv fuel r2 with
        | none => none
        | some (vs, r3) => some (v :: vs, r3)
      | ']' :: r2 => some ([v], r2)
      | _ => none

/-- Comma-separated `"key": value` object members up to the closing brace,
with the value parser `pv` supplied as an argument. -/
def parseMembersF (pv : List Char → Option (JsonValue × List Char)) :
    ℕ → List Char → Option (List (List Char × JsonValue) × List Char)
  | 0, _ => none
  | fuel + 1, s =>
    match skipWs s with
    | '"' :: r =>
      match takeUntilQuote r with
      | none => none
      | some (key, r2) =>
        match skipWs r2 with
        | ':' :: r3 =>
          match pv r3 with
          | none => none
          | some (v, r4) =>
            match skipWs r4 with
            | ',' :: r5 =>
              match parseMembersF pv fuel r5 with
              | none => none
              | some (ms, r6) => some ((key, v) :: ms, r6)
            | c :: r5 =>
              if c = Char.ofNat 125 then some ([(key, v)], r5) else none
            | [] => none
        | _ => none
    | _ => none

/-- Recursive-descent JSON value parser; the fuel bounds the nesting depth.
The opening and closing braces of objects are written via their character
codes (123 and 125). -/
def parseValueN (fuel : ℕ) : List Char → Option (JsonValue × List Char) :=
  match fuel with
  | 0 => fun _ => none
  | fuel + 1 => fun s =>
    match skipWs s with
    | 'n' :: 'u' :: 'l' :: 'l' :: r => some (.null, r)
    | 't' :: 'r' :: 'u' :: 'e' :: r => some (.bool true, r)
    | 'f' :: 'a' :: 'l' :: 's' :: 'e' :: r => some (.bool false, r)
    | '"' :: r => (takeUntilQuote r).map (fun p => (.str p.1, p.2))
    | '[' :: r =>
      match skipWs r with
      | ']' :: r2 => some (.arr [], r2)
      | s2 => (parseElemsF (fun t => parseValueN fuel t) (s2.length + 1) s2).map
          (fun p => (.arr p.1, p.2))
    | c :: r =>
      if c = Char.ofNat 123 then
        match skipWs r with
        | [] => none
        | c2 :: r2 =>
          if c2 = Char.ofNat 125 then some (.obj [], r2)
          else
            (parseMembersF (fun t => parseValueN fuel t) ((c2 :: r2).length + 1) (c2 :: r2)).map
              (fun p => (.obj p.1, p.2))
      else (parseNumber (c :: r)).map (fun p => (.num p.1, p.2))
    | [] => none

/-- Model of Python's `json.loads` (line 78) over the JSON fragment used by
the scraped payloads: a value must be parsed and, apart from trailing
whitespace, the whole text must be consumed; `none` models the json module's
decode error (the spec's `MalformedPayload`). -/
def jsonLoads (s : List Char) : Option JsonValue :=
  match parseValueN (s.length + 1) s with
  | none => none
  | some (v, rest) => if (skipWs rest).isEmpty then some v else none

/-- `get_json_data` (lines 55-80) from the marker element's text onwards:
strip the comment delimiters (line 77), then parse the remaining text as
JSON (line 78).  Locating the marker element itself is done by
BeautifulSoup, an external collaborator. -/
def get_json_data (tagText : List Char) : Option JsonValue :=
  jsonLoads (stripComments tagText)

/-- A non-negative IEEE-754 binary64 value, the arithmetic of `divide_list`
(lines 202-208): the represented value is `m * 2 ^ e`, with `m = 0` or
`2 ^ 52 ≤ m < 2 ^ 53` (a normalized 53-bit significand).  Zero, infinities,
NaNs and subnormals beyond the zero case do not arise in the partitioner's
value range and are not modelled. -/
structure F64 where
  m : ℕ
  e : ℤ
deriving DecidableEq, Repr

/-- Number of binary digits of `n` (`0` for `0`), by structural recursion on
a fuel that `bitLen` instantiates large enough. -/
def bitLenAux : ℕ → ℕ → ℕ
  | 0, _ => 0
  | fuel + 1, n => if n = 0 then 0 else bitLenAux fuel (n / 2) + 1

/-- Number of binary digits of `n`: `2 ^ (bitLen n - 1) ≤ n < 2 ^ bitLen n`
for `n ≥ 1`. -/
def bitLen (n : ℕ) : ℕ := bitLenAux n n

/-- Round `S * 2 ^ e` (with `S : ℕ` exact, or carrying one trailing sticky
bit, see `F64.div`) to the nearest binary64 value, ties to the even
significand — IEEE-754 round-to-nearest-even, the rounding Python floats
use. -/
def roundM (S : ℕ) (e : ℤ) : F64 :=
  if S = 0 then ⟨0, 0⟩
  else
    let b := bitLen S
    if b ≤ 53 then ⟨S * 2 ^ (53 - b), e - (53 - b)⟩
    else
      let s := b - 53
      let q := S / 2 ^ s
      let r := S % 2 ^ s
      let half := 2 ^ (s - 1)
      let q' := if half < r ∨ (r = half ∧ q % 2 = 1) then q + 1 else q
      if q' = 2 ^ 53 then ⟨2 ^ 52, e + s + 1⟩ else ⟨q', e + s⟩

/-- Conversion of a Python `int` to a float (`float(n)`, and the implicit
promotion in `len(input_list) / float(n)`): exact below `2 ^ 53`, rounded to
nearest above. -/
def F64.ofNat (k : ℕ) : F64 := roundM k 0

/-- Binary64 addition (`last += avg`): the exact sum, aligned to the smaller
exponent, rounded to nearest-even. -/
def F64.add (a b : F64) : F64 :=
  if a.e ≤ b.e then roundM (b.m * 2 ^ (b.e - a.e).toNat + a.m) a.e
  else roundM (a.m * 2 ^ (a.e - b.e).toNat + b.m) b.e

/-- Binary64 division (`len(input_list) / float(n)`): the quotient of the
significands computed with 56 guard bits plus a sticky bit for the
remainder, then rounded to nearest-even — the guard bits sit far enough
above the sticky bit that this equals correct rounding of the exact
quotient.  Division by zero (Python's `ZeroDivisionError` for `n = 0`) is
mapped to zero and is outside every claim, which all assume `n ≥ 1`. -/
def F64.div (a b : F64) : F64 :=
  if a.m = 0 ∨ b.m = 0 then ⟨0, 0⟩
  else
    let q := a.m * 2 ^ 56 / b.m
    let r := a.m * 2 ^ 56 % b.m
    roundM (2 * q + (if r = 0 then 0 else 1)) (a.e - b.e - 57)

/-- The loop guard `last < len(input_list)`: Python compares a float and an
int exactly, without conversion. -/
def F64.ltNat (a : F64) (k : ℕ) : Bool :=
  if 0 ≤ a.e then a.m * 2 ^ a.e.toNat < k
  else a.m < k * 2 ^ (-a.e).toNat

/-- `int(last)`: truncation towards zero, which on the non-negative values
reached here is the floor. -/
def F64.floorNat (a : F64) : ℕ :=
  if 0 ≤ a.e then a.m * 2 ^ a.e.toNat
  else a.m / 2 ^ (-a.e).toNat

/-- The `while last < len(input_list):` loop of `divide_list`
(lines 202-208) over binary64 arithmetic, with the slice
`input_list[int(last):int(last + avg)]` written as a drop/take; `last + avg`
is the same rounded value in the slice bound and in the accumulator update.
The fuel makes the recursion structural; `divide_list` below supplies
`n + len + 2`, which covers every run evaluated by the claims (float drift
adds at most one iteration there).  On pathological inputs (far beyond the
claims' witnesses) the Python loop can fail to make progress and never
terminate; there the fuel cuts the model off instead. -/
def divideGo {α : Type} (l : List α) (avg : F64) : ℕ → F64 → List (List α)
  | 0, _ => []
  | fuel + 1, last =>
    if last.ltNat l.length then
      (l.drop last.floorNat).take ((last.add avg).floorNat - last.floorNat) ::
        divideGo l avg fuel (last.add avg)
    else []

/-- `divide_list` (lines 187-210): `avg = len(input_list) / float(n)` in
binary64, `last = 0.0`, then the while loop. -/
def divide_list {α : Type} (l : List α) (n : ℕ) : List (List α) :=
  divideGo l ((F64.ofNat l.length).div (F64.ofNat n)) (n + l.length + 2) (F64.ofNat 0)

/-- The exact-rational idealization of the loop of `divide_list`: the same
recursion with the accumulator `last` carried in ℚ instead of binary64.
This is the spec-side comparison definition for the partitioner contract
(spec 4.1); `divide_list` above is the source-side one. -/
def divideGoExact {α : Type} (l : List α) (avg : ℚ) : ℕ → ℚ → List (List α)
  | 0, _ => []
  | fuel + 1, last =>
    if last < (l.length : ℚ) then
      (l.drop ⌊last⌋₊).take (⌊last + avg⌋₊ - ⌊last⌋₊) :: divideGoExact l avg fuel (last + avg)
    else []

/-- The exact-rational idealization of `divide_list` (the partitioner
contract of spec 4.1 idealizes the float arithmetic away): under exact
arithmetic the loop runs exactly `n` times for a non-empty list, so fuel
`n + 1` suffices. -/
def divide_list_exact {α : Type} (l : List α) (n : ℕ) : List (List α) :=
  divideGoExact l ((l.length : ℚ) / (n : ℚ)) (n + 1) 0

/-- The outcome of `session.get(url)` together with the downstream
extraction, modelling the external collaborators of one URL's processing:
`raised` is a network-level exception from `requests`; `ok status page`
is a response with the given status code whose body, when handed to
`get_json_data`, yields the given structured payload or extraction error. -/
inductive HttpResult where
  | raised
  | ok (status : ℕ) (page : Except ScrapeError PageData)

/-- One text block printed by the worker: a rendered report (line 259), the
fetch-failure message of line 249, or the catch-all failure message of
line 262 (`none` marks a network-level exception, `some e` an
extraction/mapping error). -/
inductive OutEvent where
  | report (url : String) (lines : List String)
  | fetchDiag (url : String) (status : ℕ)
  | errorDiag (url : String) (e : Option ScrapeError)
deriving DecidableEq, Repr

/-- `Scraper.run` (lines 235-264) over the environment `env`: for each URL,
fetch; on a network exception print a diagnostic and continue (the
`except` clause); on a non-200 status print a diagnostic and `return`,
which ends the whole loop (line 250); otherwise extract, map and render,
where any extraction or mapping exception is caught by the `except` clause
and processing continues with the next URL. -/
def runWorker (env : String → HttpResult) : List String → List OutEvent
  | [] => []
  | url :: rest =>
    match env url with
    | .raised => .errorDiag url none :: runWorker env rest
    | .ok status page =>
      if status ≠ 200 then [.fetchDiag url status]
      else
        match page with
        | .error e => .errorDiag url (some e) :: runWorker env rest
        | .ok pd =>
          match generate_report pd with
          | .error e => .errorDiag url (some e) :: runWorker env rest
          | .ok summary => .report url (print_report summary) :: runWorker env rest

/-- The argument accepted by `Scraper.__init__` (lines 224-233): either a
single URL string or a list of URL strings. -/
inductive UrlsArg where
  | single (u : String)
  | many (us : List String)

/-- `Scraper.__init__` (lines 224-233): a plain string is wrapped into a
one-element list (`if type(urls) is str: self.urls = [urls]`); a list is
stored unchanged. -/
def scraperUrls : UrlsArg → List String
  | .single u => [u]
  | .many us => us

/-- A well-formed listing (the end-to-end example of the spec): name
`"Sea View Flat"`, one detail `Bedrooms: 2`, one present general non-safety
amenity `Wifi`. -/
def listingSea : Listing :=
  { name := some "Sea View Flat"
    space_interface := [{ label := some "Bedrooms:", value := some "2" }]
    listing_amenities := [{ name := "Wifi", category := "general",
                            is_present := true, is_safety_feature := false }] }

/-- The payload wrapping `listingSea`. -/
def pageSea : PageData :=
  { listing := some listingSea }

/-- A listing whose only detail has the recognized label `"Bathrooms:"` but
no `value` key. -/
def listingNoValue : Listing :=
  { name := some "X"
    space_interface := [{ label := some "Bathrooms:", value := none }]
    listing_amenities := [] }

/-- A payload whose only detail has the recognized label `"Bathrooms:"` but
no `value` key: reading `detail['value']` raises `KeyError`. -/
def pageNoValue : PageData :=
  { listing := some listingNoValue }

/-- An environment in which `"u1"` answers with HTTP status 404 and every
other URL answers 200 with the valid payload `pageSea`. -/
def envOneBad : String → HttpResult :=
  fun u => if u = "u1" then .ok 404 (.ok pageSea) else .ok 200 (.ok pageSea)

/-- The marker text `'1<<!--!--2'`: removing the first `'<!--'` occurrence
splices the surrounding characters into a fresh `'<!--'`. -/
def regrowText : List Char := ['1', '<', '<', '!', '-', '-', '!', '-', '-', '2']

/-- The marker text `'[1<!--,2-->]'`: both delimiters sit strictly inside
the text, and removing them leaves the well-formed JSON array `[1,2]`. -/
def midDelimText : List Char :=
  ['[', '1', '<', '!', '-', '-', ',', '2', '-', '-', '>', ']']

/-- The summary that `generate_report` produces for `pageSea` (the spec's
end-to-end example). -/
def summarySea : Summary :=
  { property_name := "Sea View Flat"
    property_type := "Not found"
    rooms := "2"
    bathrooms := "Not found"
    general_amenities := ["Wifi"]
    family_amenities := []
    safety_feats := [] }

/-- A present family amenity that is also flagged as a safety feature. -/
def amenCot : Amenity := Amenity.mk "Cot" "family" true true

/-- A present general amenity flagged as a safety feature. -/
def amenAlarm : Amenity := Amenity.mk "Smoke alarm" "general" true true

/-- A present general amenity that is not a safety feature. -/
def amenWifi : Amenity := Amenity.mk "Wifi" "general" true false

/-- An absent amenity. -/
def amenPool : Amenity := Amenity.mk "Pool" "general" false true

/-- A mixed amenities list touching every branch of the classification. -/
def amenMix : List Amenity := [amenCot, amenAlarm, amenWifi, amenPool]

/-- Closed-form description of the chunks `divide_list_exact` produces from
the `k`-th iteration on, used to prove the partitioner claims: `m` further
chunks, the `j`-th spanning the index interval from `j * L / n` to
`(j + 1) * L / n` (integer division). -/
def chunksFrom {α : Type} (l : List α) (n : ℕ) : ℕ → ℕ → List (List α)
  | 0, _ => []
  | m + 1, k =>
    (l.drop (k * l.length / n)).take ((k + 1) * l.length / n - k * l.length / n) ::
      chunksFrom l n m (k + 1)

/-- A `detailStep` that does not error yields either the unchanged summary
or the summary updated with some present value. -/
theorem detailStep_ok_cases (s : Summary) (d : Detail) (lbl : String)
    (upd : Summary → String → Summary) (s' : Summary)
    (h : detailStep s d lbl upd = Except.ok s') :
    s' = s ∨ ∃ v, d.value = some v ∧ s' = upd s v := by
  unfold detailStep at h
  by_cases hl : d.label = some lbl
  · rw [if_pos hl] at h
    cases hv : d.value with
    | none => simp [hv] at h
    | some v =>
      simp only [hv] at h
      by_cases hv0 : v = ""
      · rw [if_pos hv0] at h
        injection h with h
        exact Or.inl h.symm
      · rw [if_neg hv0] at h
        injection h with h
        exact Or.inr ⟨v, rfl, h.symm⟩
  · rw [if_neg hl] at h
    injection h with h
    exact Or.inl h.symm

/-- When the detail's label differs from the step's label, the step leaves
the summary unchanged. -/
theorem detailStep_not_label (s : Summary) (d : Detail) (lbl : String)
    (upd : Summary → String → Summary) (h : d.label ≠ some lbl) :
    detailStep s d lbl upd = Except.ok s := by
  unfold detailStep
  rw [if_neg h]

/-- A successful `processDetail` on a detail not labelled `"Bathrooms:"`
leaves the bathrooms field unchanged. -/
theorem processDetail_ok_bathrooms {s s' : Summary} {d : Detail}
    (hlbl : d.label ≠ some "Bathrooms:")
    (h : processDetail s d = Except.ok s') : s'.bathrooms = s.bathrooms := by
  unfold processDetail at h
  cases h1 : detailStep s d "Property type:" (fun s v => { s with property_type := v }) with
  | error e => simp [h1] at h
  | ok s1 =>
    simp only [h1] at h
    cases h2 : detailStep s1 d "Bedrooms:" (fun s v => { s with rooms := v }) with
    | error e => simp [h2] at h
    | ok s2 =>
      simp only [h2] at h
      rw [detailStep_not_label s2 d "Bathrooms:" _ hlbl] at h
      injection h with h
      have e1 : s1.bathrooms = s.bathrooms := by
        rcases detailStep_ok_cases _ _ _ _ _ h1 with h' | ⟨v, _, h'⟩ <;> subst h' <;> rfl
      have e2 : s2.bathrooms = s1.bathrooms := by
        rcases detailStep_ok_cases _ _ _ _ _ h2 with h' | ⟨v, _, h'⟩ <;> subst h' <;> rfl
      rw [← h, e2, e1]

/-- A successful run of the details loop over details none of which is
labelled `"Bathrooms:"` leaves the bathrooms field unchanged. -/
theorem processDetails_ok_bathrooms :
    ∀ (ds : List Detail) (s s' : Summary),
      (∀ d ∈ ds, d.label ≠ some "Bathrooms:") →
      processDetails s ds = Except.ok s' → s'.bathrooms = s.bathrooms := by
  intro ds
  induction ds with
  | nil =>
    intro s s' _ h
    unfold processDetails at h
    injection h with h
    rw [← h]
  | cons d ds ih =>
    intro s s' hall h
    unfold processDetails at h
    cases hd : processDetail s d with
    | error e => simp [hd] at h
    | ok s1 =>
      simp only [hd] at h
      have hrest := ih s1 s' (fun x hx => hall x (List.mem_cons_of_mem d hx)) h
      rw [hrest, processDetail_ok_bathrooms (hall d (List.mem_cons_self d ds)) hd]

/-- The amenities loop never touches the bathrooms field (single step). -/
theorem processAmenity_bathrooms (s : Summary) (a : Amenity) :
    (processAmenity s a).bathrooms = s.bathrooms := by
  unfold processAmenity
  split_ifs <;> rfl

/-- The amenities loop never touches the bathrooms field. -/
theorem processAmenities_bathrooms :
    ∀ (la : List Amenity) (s : Summary), (processAmenities s la).bathrooms = s.bathrooms := by
  intro la
  induction la with
  | nil => intro s; rfl
  | cons a rest ih =>
    intro s
    unfold processAmenities
    rw [ih, processAmenity_bathrooms]

/-- Claim C3: a present amenity whose category is `"family"` is appended to
the family list and to no other list — in particular never to the safety
list, whatever its safety flag — because the family branch of the amenity
classification fires first. -/
theorem family_precedes_safety (s : Summary) (a : Amenity)
    (hp : a.is_present = true) (hf : a.category = "family") :
    processAmenity s a = { s with family_amenities := s.family_amenities ++ [a.name] } := by
  simp [processAmenity, hp, hf]

/-- Witness for `family_precedes_safety`: the spec's smoke-alarm amenity,
with the safety flag also set, lands in the family list only. -/
theorem family_precedes_safety_witness :
    (Amenity.mk "Smoke alarm" "family" true true).is_present = true
  ∧ (Amenity.mk "Smoke alarm" "family" true true).category = "family"
  ∧ processAmenity (initSummary "A") (Amenity.mk "Smoke alarm" "family" true true) =
      { initSummary "A" with family_amenities := ["Smoke alarm"] } :=
  ⟨rfl, rfl, family_precedes_safety (initSummary "A") (Amenity.mk "Smoke alarm" "family" true true) rfl rfl⟩

/-- Claim C8: a payload whose listing lacks the `name` field makes
`generate_report` signal the missing-name failure, so no summary record is
produced. -/
theorem missing_name_signals_error (p : PageData) (l : Listing)
    (hl : p.listing = some l) (hn : l.name = none) :
    generate_report p = Except.error ScrapeError.missingName := by
  simp [generate_report, hl, hn]

/-- Witness for `missing_name_signals_error` at a concrete payload. -/
theorem missing_name_signals_error_witness :
    (PageData.mk (some (Listing.mk none [] []))).listing = some (Listing.mk none [] [])
  ∧ (Listing.mk none [] []).name = none
  ∧ generate_report (PageData.mk (some (Listing.mk none [] []))) =
      Except.error ScrapeError.missingName :=
  ⟨rfl, rfl, missing_name_signals_error (PageData.mk (some (Listing.mk none [] []))) (Listing.mk none [] []) rfl rfl⟩

/-- Claim C10: a worker constructed with a single URL string wraps it into a
one-element list; a worker constructed with a list stores the list
unchanged. -/
theorem scraper_init_urls :
    (∀ u : String, scraperUrls (UrlsArg.single u) = [u])
  ∧ (∀ us : List String, scraperUrls (UrlsArg.many us) = us) :=
  ⟨fun _ => rfl, fun _ => rfl⟩

/-- Claim C9: on a summary whose three amenity lists are all empty, the
renderer emits a single bulleted `"n/a"` placeholder for the family section
and one for the safety section, but nothing at all between the general
amenities heading and the family heading. -/
theorem render_placeholder_asymmetry (r : Summary)
    (hg : r.general_amenities = []) (hf : r.family_amenities = [])
    (hs : r.safety_feats = []) :
    print_report r =
      [ strRepeat "* " ((reportHeader r.property_name).length / 2),
        reportHeader r.property_name,
        ljust "Property Type:" 25 ++ " " ++ r.property_type,
        ljust "Number of Bedrooms:" 25 ++ " " ++ r.rooms,
        ljust "Number of Bathrooms:" 25 ++ " " ++ r.bathrooms,
        "\nAMENITIES:",
        "\nFAMILY AMENITIES:",
        bullet "n/a",
        "\nSAFETY FEATURES:",
        bullet "n/a",
        "\n" ] := by
  simp [print_report, hg, hf, hs]

/-- Witness for `render_placeholder_asymmetry`: the all-empty summary of a
property named `"A"`. -/
theorem render_placeholder_asymmetry_witness :
    (initSummary "A").general_amenities = []
  ∧ (initSummary "A").family_amenities = []
  ∧ (initSummary "A").safety_feats = []
  ∧ print_report (initSummary "A") =
      [ strRepeat "* " ((reportHeader "A").length / 2),
        reportHeader "A",
        ljust "Property Type:" 25 ++ " " ++ "Not found",
        ljust "Number of Bedrooms:" 25 ++ " " ++ "Not found",
        ljust "Number of Bathrooms:" 25 ++ " " ++ "Not found",
        "\nAMENITIES:",
        "\nFAMILY AMENITIES:",
        bullet "n/a",
        "\nSAFETY FEATURES:",
        bullet "n/a",
        "\n" ] :=
  ⟨rfl, rfl, rfl, render_placeholder_asymmetry (initSummary "A") rfl rfl rfl⟩

/-- Claim C6 counterexample: on a payload whose only detail carries the
recognized label `"Bathrooms:"` but no value field, the mapper does fail —
`detail['value']` raises `KeyError` — instead of keeping the sentinel and
continuing as the claim states. -/
theorem missing_value_counterexample :
    generate_report pageNoValue = Except.error ScrapeError.missingValue := by rfl

/-- Claim C6 (amended): for the three recognized labels, an absent value
field makes the mapper fail with the missing-value error for that page;
a present but empty value keeps the sentinel; a present non-empty value
overwrites the corresponding field. -/
theorem recognized_label_value_handling :
    (∀ (s : Summary) (d : Detail),
        (d.label = some "Property type:" ∨ d.label = some "Bedrooms:" ∨
          d.label = some "Bathrooms:") →
        d.value = none → processDetail s d = Except.error ScrapeError.missingValue)
  ∧ (∀ (s : Summary) (d : Detail), d.value = some "" →
        processDetail s d = Except.ok s)
  ∧ (∀ (s : Summary) (v : String), v ≠ "" →
        processDetail s (Detail.mk (some "Property type:") (some v)) =
          Except.ok { s with property_type := v }
      ∧ processDetail s (Detail.mk (some "Bedrooms:") (some v)) =
          Except.ok { s with rooms := v }
      ∧ processDetail s (Detail.mk (some "Bathrooms:") (some v)) =
          Except.ok { s with bathrooms := v }) := by
  refine ⟨?_, ?_, ?_⟩
  · intro s d hlbl hv
    rcases hlbl with h | h | h <;> simp [processDetail, detailStep, h, hv]
  · intro s d hv
    simp only [processDetail, detailStep, hv]
    split_ifs <;> simp
  · intro s v hv
    refine ⟨?_, ?_, ?_⟩ <;> simp [processDetail, detailStep, hv]

/-- Witness for `recognized_label_value_handling`: concrete details with an
absent, an empty and a non-empty value. -/
theorem recognized_label_value_handling_witness :
    processDetail (initSummary "A") (Detail.mk (some "Bathrooms:") none) =
      Except.error ScrapeError.missingValue
  ∧ processDetail (initSummary "A") (Detail.mk (some "Bedrooms:") (some "")) =
      Except.ok (initSummary "A")
  ∧ processDetail (initSummary "A") (Detail.mk (some "Bathrooms:") (some "2.5")) =
      Except.ok { initSummary "A" with bathrooms := "2.5" } :=
  ⟨recognized_label_value_handling.1 (initSummary "A") (Detail.mk (some "Bathrooms:") none)
      (Or.inr (Or.inr rfl)) rfl,
   recognized_label_value_handling.2.1 (initSummary "A") (Detail.mk (some "Bedrooms:") (some "")) rfl,
   (recognized_label_value_handling.2.2 (initSummary "A") "2.5" (by decide)).2.2⟩

/-- Claim C5: if no detail is labelled `"Bathrooms:"`, a successfully mapped
summary keeps the `"Not found"` sentinel in its bathrooms field; and a
detail with an unrecognized label is ignored — no error, no change to the
summary. -/
theorem bathrooms_default_and_unrecognized_ignored :
    (∀ (p : PageData) (l : Listing) (s : Summary),
        p.listing = some l →
        (∀ d ∈ l.space_interface, d.label ≠ some "Bathrooms:") →
        generate_report p = Except.ok s → s.bathrooms = "Not found")
  ∧ (∀ (s : Summary) (d : Detail),
        d.label ≠ some "Property type:" → d.label ≠ some "Bedrooms:" →
        d.label ≠ some "Bathrooms:" → processDetail s d = Except.ok s) := by
  constructor
  · intro p l s hl hall h
    unfold generate_report at h
    simp only [hl] at h
    cases hn : l.name with
    | none => simp [hn] at h
    | some nm =>
      simp only [hn] at h
      cases hds : processDetails (initSummary nm) l.space_interface with
      | error e => simp [hds] at h
      | ok s0 =>
        simp only [hds] at h
        injection h with h
        rw [← h, processAmenities_bathrooms,
          processDetails_ok_bathrooms l.space_interface (initSummary nm) s0 hall hds]
        rfl
  · intro s d h1 h2 h3
    simp [processDetail, detailStep, h1, h2, h3]

/-- Witness for `bathrooms_default_and_unrecognized_ignored`: the spec's
end-to-end payload (no bathrooms detail) and a detail with an unknown
label. -/
theorem bathrooms_default_and_unrecognized_ignored_witness :
    pageSea.listing = some listingSea
  ∧ generate_report pageSea = Except.ok summarySea
  ∧ summarySea.bathrooms = "Not found"
  ∧ processDetail (initSummary "B") (Detail.mk (some "Garage:") (some "yes")) =
      Except.ok (initSummary "B") :=
  ⟨rfl, rfl,
   bathrooms_default_and_unrecognized_ignored.1 pageSea listingSea summarySea rfl
     (by decide) rfl,
   bathrooms_default_and_unrecognized_ignored.2 (initSummary "B")
     (Detail.mk (some "Garage:") (some "yes")) (by decide) (by decide) (by decide)⟩

/-- Claim C1 (the code diverges from it): in an environment where `"u1"`
answers with HTTP status 404 and `"u2"` answers 200 with a valid page, the
worker running the partition `["u1", "u2"]` emits only the fetch-failure
diagnostic for `"u1"` and never reaches `"u2"` — the `return` on line 250
aborts the remainder of the partition — although the same worker given
`["u2"]` alone renders that page's report. -/
theorem scraper_run_aborts_partition_on_fetch_failure :
    runWorker envOneBad ["u1", "u2"] = [OutEvent.fetchDiag "u1" 404]
  ∧ runWorker envOneBad ["u2"] = [OutEvent.report "u2" (print_report summarySea)] :=
  ⟨rfl, rfl⟩

/-- A single amenity step appends the amenity's name to exactly the list
selected by its classifier, leaving the other two lists unchanged. -/
theorem processAmenity_fields (s : Summary) (a : Amenity) :
    (processAmenity s a).general_amenities =
      s.general_amenities ++ (if isGeneralA a then [a.name] else [])
  ∧ (processAmenity s a).family_amenities =
      s.family_amenities ++ (if isFamilyA a then [a.name] else [])
  ∧ (processAmenity s a).safety_feats =
      s.safety_feats ++ (if isSafetyA a then [a.name] else []) := by
  cases hp : a.is_present <;> cases hf : a.category == "family" <;>
    cases hg : a.category == "general" <;> cases hs : a.is_safety_feature <;>
    simp [processAmenity, isFamilyA, isSafetyA, isGeneralA, hp, hf, hg, hs]

/-- Claim C4: each of the three output lists collects, in input order, the
names of exactly the amenities its branch classifier selects; a present
amenity satisfies exactly one of the three classifiers and an absent one
satisfies none, so every present entry lands in exactly one list and an
absent entry in none, with input order preserved. -/
theorem amenity_exactly_one_group :
    (∀ (la : List Amenity) (s : Summary),
        (processAmenities s la).general_amenities =
          s.general_amenities ++ (la.filter isGeneralA).map Amenity.name
      ∧ (processAmenities s la).family_amenities =
          s.family_amenities ++ (la.filter isFamilyA).map Amenity.name
      ∧ (processAmenities s la).safety_feats =
          s.safety_feats ++ (la.filter isSafetyA).map Amenity.name)
  ∧ (∀ a : Amenity, a.is_present = true →
        (isFamilyA a).toNat + (isSafetyA a).toNat + (isGeneralA a).toNat = 1)
  ∧ (∀ a : Amenity, a.is_present = false →
        isFamilyA a = false ∧ isSafetyA a = false ∧ isGeneralA a = false) := by
  refine ⟨?_, ?_, ?_⟩
  · intro la
    induction la with
    | nil => intro s; simp [processAmenities]
    | cons a rest ih =>
      intro s
      have hstep := processAmenity_fields s a
      unfold processAmenities
      refine ⟨?_, ?_, ?_⟩
      · rw [(ih (processAmenity s a)).1, hstep.1]
        cases hga : isGeneralA a <;>
          simp [List.filter_cons, hga, List.append_assoc]
      · rw [(ih (processAmenity s a)).2.1, hstep.2.1]
        cases hfa : isFamilyA a <;>
          simp [List.filter_cons, hfa, List.append_assoc]
      · rw [(ih (processAmenity s a)).2.2, hstep.2.2]
        cases hsa : isSafetyA a <;>
          simp [List.filter_cons, hsa, List.append_assoc]
  · intro a hp
    cases hf : a.category == "family" <;> cases hg : a.category == "general" <;>
      cases hs : a.is_safety_feature <;>
      simp [isFamilyA, isSafetyA, isGeneralA, hp, hf, hg, hs]
  · intro a hp
    simp [isFamilyA, isSafetyA, isGeneralA, hp]

/-- Witness for `amenity_exactly_one_group`: the mixed amenities list.  The
family-and-safety-flagged cot goes only to the family list, the general
safety alarm only to the safety list, the wifi only to the general list and
the absent pool nowhere. -/
theorem amenity_exactly_one_group_witness :
    (processAmenities (initSummary "W") amenMix).general_amenities = ["Wifi"]
  ∧ (processAmenities (initSummary "W") amenMix).family_amenities = ["Cot"]
  ∧ (processAmenities (initSummary "W") amenMix).safety_feats = ["Smoke alarm"]
  ∧ (isFamilyA amenCot).toNat + (isSafetyA amenCot).toNat + (isGeneralA amenCot).toNat = 1
  ∧ isFamilyA amenPool = false ∧ isSafetyA amenPool = false ∧ isGeneralA amenPool = false :=
  ⟨(amenity_exactly_one_group.1 amenMix (initSummary "W")).1,
   (amenity_exactly_one_group.1 amenMix (initSummary "W")).2.1,
   (amenity_exactly_one_group.1 amenMix (initSummary "W")).2.2,
   amenity_exactly_one_group.2.1 amenCot rfl,
   amenity_exactly_one_group.2.2 amenPool rfl⟩

/-- A replacement pass over a text that contains no occurrence of the
pattern leaves the text unchanged, whatever the fuel. -/
theorem pyReplaceFuel_no_sub (pat : List Char) :
    ∀ (f : ℕ) (s : List Char), hasSub s pat = false → pyReplaceFuel pat f s = s := by
  intro f
  induction f with
  | zero => intro s _; cases s <;> rfl
  | succ f ih =>
    intro s h
    cases s with
    | nil => rfl
    | cons c rest =>
      rw [hasSub] at h
      rcases Bool.or_eq_false_iff.mp h with ⟨h1, h2⟩
      simp [pyReplaceFuel, h1, ih rest h2]

/-- `str.replace(pat, '')` on a text with no occurrence of `pat` is the
identity. -/
theorem pyReplace_no_sub (s pat : List Char) (h : hasSub s pat = false) :
    pyReplace s pat = s :=
  pyReplaceFuel_no_sub pat s.length s h

/-- When the stripped text contains no residual delimiter occurrence,
stripping it again changes nothing. -/
theorem stripComments_fixed (t : List Char)
    (h1 : hasSub (stripComments t) commentOpen = false)
    (h2 : hasSub (stripComments t) commentClose = false) :
    stripComments (stripComments t) = stripComments t := by
  show pyReplace (pyReplace (stripComments t) commentOpen) commentClose = stripComments t
  rw [pyReplace_no_sub _ _ h1, pyReplace_no_sub _ _ h2]

/-- Claim C7 counterexample: on the marker text `'1<<!--!--2'`, removing the
first `'<!--'` occurrence splices a fresh `'<!--'` together, so the stripped
text `'1<!--2'` still contains the delimiter and fails to parse, while
pre-stripping the text first yields `'12'`, which parses to the number 12.
The extractor therefore does not yield the same payload on the text and on
the text with the delimiters removed first. -/
theorem strip_comments_not_idempotent :
    get_json_data regrowText ≠ get_json_data (stripComments regrowText) := by
  have h1 : get_json_data regrowText = none := rfl
  have h2 : get_json_data (stripComments regrowText) = some (JsonValue.num 12) := rfl
  rw [h1, h2]
  simp

/-- Claim C7 (amended): the stripping removes each delimiter anywhere in the
text (not only as a wrapping prefix/suffix) in one left-to-right pass per
delimiter; whenever the stripped text contains no residual occurrence of
either delimiter — in particular whenever the removals do not splice new
delimiters together — parsing the original text yields the same payload as
parsing the pre-stripped text. -/
theorem extractor_idempotent_when_no_residual (t : List Char)
    (h1 : hasSub (stripComments t) commentOpen = false)
    (h2 : hasSub (stripComments t) commentClose = false) :
    get_json_data (stripComments t) = get_json_data t := by
  unfold get_json_data
  rw [stripComments_fixed t h1 h2]

/-- Witness for `extractor_idempotent_when_no_residual`: the marker text
`'[1<!--,2-->]'` carries both delimiters strictly inside the text; stripping
leaves `'[1,2]'` with no residual delimiter, and the extractor parses the
original and the pre-stripped text to the same array. -/
theorem extractor_idempotent_when_no_residual_witness :
    hasSub (stripComments midDelimText) commentOpen = false
  ∧ hasSub (stripComments midDelimText) commentClose = false
  ∧ get_json_data (stripComments midDelimText) = get_json_data midDelimText :=
  ⟨rfl, rfl, extractor_idempotent_when_no_residual midDelimText rfl rfl⟩

/-- The floor of `k * (L / n)` over the rationals is the integer division
`k * L / n`. -/
theorem floor_mul_div (L n k : ℕ) :
    ⌊(k : ℚ) * ((L : ℚ) / (n : ℚ))⌋₊ = k * L / n := by
  have h1 : (k : ℚ) * ((L : ℚ) / (n : ℚ)) = ((k * L : ℕ) : ℚ) / ((n : ℕ) : ℚ) := by
    push_cast
    ring
  rw [h1, Nat.floor_div_nat, Nat.floor_natCast]

/-- The while-loop guard `last < len` at the state `last = k * (L / n)`
holds exactly when fewer than `n` chunks have been produced. -/
theorem divideCond {L n : ℕ} (hL : 0 < L) (hn : 0 < n) (k : ℕ) :
    ((k : ℚ) * ((L : ℚ) / (n : ℚ)) < (L : ℚ)) ↔ k < n := by
  have hL' : (0 : ℚ) < (L : ℚ) := by exact_mod_cast hL
  rw [← mul_div_assoc, div_lt_iff₀ (by exact_mod_cast hn), mul_comm (L : ℚ) (n : ℚ),
    mul_lt_mul_right hL', Nat.cast_lt]

/-- Simulation of the while loop of `divide_list_exact`: from the state
`last = k * (L / n)` with enough fuel, the loop produces exactly the chunks
described by `chunksFrom`. -/
theorem divideGoExact_eq_chunksFrom {α : Type} (l : List α) (n : ℕ)
    (hn : 0 < n) (hL : 0 < l.length) :
    ∀ (f k : ℕ), k ≤ n → n - k ≤ f →
      divideGoExact l ((l.length : ℚ) / (n : ℚ)) f ((k : ℚ) * ((l.length : ℚ) / (n : ℚ))) =
        chunksFrom l n (n - k) k := by
  intro f
  induction f with
  | zero =>
    intro k hk hf
    have h0 : n - k = 0 := Nat.le_zero.mp hf
    rw [h0]
    rfl
  | succ f ih =>
    intro k hk hf
    by_cases hkn : k < n
    · rw [divideGoExact, if_pos ((divideCond hL hn k).mpr hkn)]
      have hnext : (k : ℚ) * ((l.length : ℚ) / (n : ℚ)) + (l.length : ℚ) / (n : ℚ) =
          ((k + 1 : ℕ) : ℚ) * ((l.length : ℚ) / (n : ℚ)) := by
        push_cast
        ring
      rw [hnext]
      simp only [floor_mul_div]
      rw [ih (k + 1) hkn (by omega)]
      have hm : n - k = (n - (k + 1)) + 1 := by omega
      rw [hm, chunksFrom]
    · have hkn' : k = n := Nat.le_antisymm hk (Nat.not_lt.mp hkn)
      have heq : ((k : ℕ) : ℚ) * ((l.length : ℚ) / (n : ℚ)) = (l.length : ℚ) := by
        have hn0 : ((n : ℕ) : ℚ) ≠ 0 := Nat.cast_ne_zero.mpr hn.ne'
        rw [hkn']
        field_simp
      rw [divideGoExact, if_neg (by rw [heq]; exact lt_irrefl _), hkn', Nat.sub_self]
      rfl

/-- `divide_list_exact` on a non-empty list equals its closed-form chunk
description. -/
theorem divide_list_exact_eq_chunksFrom {α : Type} (l : List α) (n : ℕ)
    (hn : 0 < n) (hL : 0 < l.length) :
    divide_list_exact l n = chunksFrom l n n 0 := by
  unfold divide_list_exact
  have h0 : (0 : ℚ) = ((0 : ℕ) : ℚ) * ((l.length : ℚ) / (n : ℚ)) := by
    push_cast
    ring
  rw [h0, divideGoExact_eq_chunksFrom l n hn hL (n + 1) 0 (Nat.zero_le n) (by omega), Nat.sub_zero]

/-- `chunksFrom` produces exactly `m` chunks. -/
theorem chunksFrom_length {α : Type} (l : List α) (n : ℕ) :
    ∀ m k : ℕ, (chunksFrom l n m k).length = m := by
  intro m
  induction m with
  | zero => intro k; rfl
  | succ m ih => intro k; rw [chunksFrom, List.length_cons, ih]

/-- The chunks from the `k`-th boundary onwards concatenate to the suffix of
the list from that boundary. -/
theorem chunksFrom_join {α : Type} (l : List α) (n : ℕ) (hn : 0 < n) :
    ∀ m k : ℕ, k + m = n →
      (chunksFrom l n m k).flatten = l.drop (k * l.length / n) := by
  intro m
  induction m with
  | zero =>
    intro k hk
    have hkn : k = n := by omega
    subst hkn
    simp [chunksFrom, Nat.mul_div_cancel_left _ hn, List.drop_length]
  | succ m ih =>
    intro k hk
    rw [chunksFrom, List.flatten_cons, ih (k + 1) (by omega)]
    have hmono : k * l.length / n ≤ (k + 1) * l.length / n :=
      Nat.div_le_div_right (Nat.mul_le_mul_right l.length (by omega))
    conv_rhs => rw [← List.take_append_drop
      ((k + 1) * l.length / n - k * l.length / n) (l.drop (k * l.length / n))]
    rw [List.drop_drop, Nat.add_sub_cancel' hmono]

/-- Two consecutive chunk boundaries differ by the floor or the ceiling of
`L / n`. -/
theorem div_boundary_diff (L n : ℕ) (hn : 0 < n) (k : ℕ) :
    (k + 1) * L / n - k * L / n = L / n ∨
    (k + 1) * L / n - k * L / n = (L + n - 1) / n := by
  have hsucc : (k + 1) * L = k * L + L := by ring
  have hadd : (k * L + L) / n = k * L / n + L / n + if n ≤ k * L % n + L % n then 1 else 0 :=
    Nat.add_div hn
  rw [hsucc, hadd]
  by_cases hc : n ≤ k * L % n + L % n
  · right
    have hLmod : L % n ≠ 0 := by
      have hx : k * L % n < n := Nat.mod_lt _ hn
      omega
    have hceil : (L + n - 1) / n = L / n + 1 := by
      have h2 : L + n - 1 = L + (n - 1) := by omega
      rw [h2, Nat.add_div hn]
      have h3 : (n - 1) / n = 0 := Nat.div_eq_of_lt (by omega)
      have h4 : (n - 1) % n = n - 1 := Nat.mod_eq_of_lt (by omega)
      have h5 : n ≤ L % n + (n - 1) := by
        have h6 : 1 ≤ L % n := Nat.pos_of_ne_zero hLmod
        omega
      rw [h3, h4, if_pos h5]
    rw [if_pos hc, hceil]
    generalize k * L / n = A
    generalize L / n = B
    omega
  · left
    rw [if_neg hc]
    generalize k * L / n = A
    generalize L / n = B
    omega

/-- Every chunk of `chunksFrom` has the floor or the ceiling of `L / n` as
its length. -/
theorem chunksFrom_sizes {α : Type} (l : List α) (n : ℕ) (hn : 0 < n) :
    ∀ m k : ℕ, k + m ≤ n → ∀ c ∈ chunksFrom l n m k,
      c.length = l.length / n ∨ c.length = (l.length + n - 1) / n := by
  intro m
  induction m with
  | zero =>
    intro k _ c hc
    simp [chunksFrom] at hc
  | succ m ih =>
    intro k hk c hc
    rw [chunksFrom] at hc
    rcases List.mem_cons.mp hc with hc | hc
    · subst hc
      have hb1 : (k + 1) * l.length / n ≤ l.length := by
        calc (k + 1) * l.length / n ≤ n * l.length / n :=
              Nat.div_le_div_right (Nat.mul_le_mul_right l.length (by omega))
        _ = l.length := Nat.mul_div_cancel_left _ hn
      have hlen : ((l.drop (k * l.length / n)).take
          ((k + 1) * l.length / n - k * l.length / n)).length =
          (k + 1) * l.length / n - k * l.length / n := by
        rw [List.length_take, List.length_drop]
        exact min_eq_left (Nat.sub_le_sub_right hb1 _)
      rw [hlen]
      exact div_boundary_diff l.length n hn k
    · exact ih (k + 1) (by omega) c hc

/-- Claim C2 counterexample, on the binary64 model of the program's
arithmetic: on an empty list the while loop never runs, so `divide_list`
returns no chunks at all — not the claimed `N = 3` sub-lists — and on a
one-element list with `N = 10` the ten accumulated copies of the double
nearest `0.1` sum to `0.9999999999999999 < 1`, so an eleventh iteration
runs and `divide_list` returns 11 sub-lists, not 10. -/
theorem divide_list_count_counterexample :
    (divide_list ([] : List ℕ) 3).length ≠ 3
  ∧ divide_list ([0] : List ℕ) 10 = [[], [], [], [], [], [], [], [], [], [], [0]]
  ∧ (divide_list ([0] : List ℕ) 10).length ≠ 10 :=
  ⟨by decide, by decide, by decide⟩

/-- Claim C2 (amended): the partitioner contract — exactly `N` ordered
sub-lists whose concatenation in order is the original list, each of length
`⌊L/N⌋` or `⌈L/N⌉` — holds for every `L ≥ 1` and `N ≥ 1` of the
exact-rational idealization `divide_list_exact` of the float loop; the
program's `divide_list` coincides with the idealization on the contract's
`L = 7`, `N = 3` example, where both return the 1-apart split of sizes
2, 2, 3 in original order.  (It does not coincide universally: see the
counterexample for `L = 0` and for the float drift at `L = 1`, `N = 10`.) -/
theorem divide_list_partitions_spec :
    (∀ (α : Type) (l : List α) (n : ℕ), 1 ≤ n → 1 ≤ l.length →
        (divide_list_exact l n).length = n
      ∧ (divide_list_exact l n).flatten = l
      ∧ ∀ c ∈ divide_list_exact l n,
          c.length = l.length / n ∨ c.length = (l.length + n - 1) / n)
  ∧ divide_list ([10, 20, 30, 40, 50, 60, 70] : List ℕ) 3 =
      divide_list_exact ([10, 20, 30, 40, 50, 60, 70] : List ℕ) 3
  ∧ divide_list ([10, 20, 30, 40, 50, 60, 70] : List ℕ) 3 =
      [[10, 20], [30, 40], [50, 60, 70]] := by
  have hexact : divide_list_exact ([10, 20, 30, 40, 50, 60, 70] : List ℕ) 3 =
      [[10, 20], [30, 40], [50, 60, 70]] := by
    rw [divide_list_exact_eq_chunksFrom ([10, 20, 30, 40, 50, 60, 70] : List ℕ) 3
      (by decide) (by decide)]
    decide
  have hfloat : divide_list ([10, 20, 30, 40, 50, 60, 70] : List ℕ) 3 =
      [[10, 20], [30, 40], [50, 60, 70]] := by decide
  refine ⟨?_, ?_, hfloat⟩
  · intro α l n hn hL
    have hn' : 0 < n := hn
    have hL' : 0 < l.length := hL
    rw [divide_list_exact_eq_chunksFrom l n hn' hL']
    refine ⟨chunksFrom_length l n n 0, ?_, ?_⟩
    · have hj := chunksFrom_join l n hn' n 0 (by omega)
      simpa using hj
    · intro c hc
      exact chunksFrom_sizes l n hn' n 0 (by omega) c hc
  · rw [hfloat, hexact]

/-- Witness for `divide_list_partitions_spec`: the contract instance at the
spec's `L = 7`, `N = 3` example. -/
theorem divide_list_partitions_spec_witness :
    1 ≤ 3 ∧ 1 ≤ ([10, 20, 30, 40, 50, 60, 70] : List ℕ).length
  ∧ ((divide_list_exact ([10, 20, 30, 40, 50, 60, 70] : List ℕ) 3).length = 3
    ∧ (divide_list_exact ([10, 20, 30, 40, 50, 60, 70] : List ℕ) 3).flatten =
        [10, 20, 30, 40, 50, 60, 70]
    ∧ ∀ c ∈ divide_list_exact ([10, 20, 30, 40, 50, 60, 70] : List ℕ) 3,
        c.length = ([10, 20, 30, 40, 50, 60, 70] : List ℕ).length / 3
      ∨ c.length = (([10, 20, 30, 40, 50, 60, 70] : List ℕ).length + 3 - 1) / 3) :=
  ⟨by decide, by decide,
   divide_list_partitions_spec.1 ℕ ([10, 20, 30, 40, 50, 60, 70] : List ℕ) 3
     (by decide) (by decide)⟩
